import Mathlib

/-!
Shallow embedding of the real-time messaging synchronization subsystem of the
Echo chat server (src/server/routes.ts second revision, src/server/storage.ts
DatabaseStorage second revision, and the shared schema src/unnamed/part_011).

Modelling conventions:
* The relational store is a record of lists of rows; drizzle queries become
  list operations (`select ... where eq` becomes `find?`/`filter`,
  `update ... set ... where` becomes a `map` that rewrites matching rows,
  `insert ... returning` appends a row built from defaults).
* The `messages` table of the schema (src/unnamed/part_011 lines 100-109) has
  no `status` column; routes.ts nevertheless reads and writes a per-message
  `status` field (`savedMessage.status`, `db.update(messages).set({ status })`).
  The spec places the DDL/ORM plumbing out of scope, so the Message row is
  modelled with a `status` field; a freshly inserted row carries `sent`,
  the value both submission handlers use as the initial delivery status
  (`let messageStatus = 'sent'`).
* The in-memory `connectedClients` / `clientIdMap` JavaScript Maps are
  modelled as association lists whose `set` replaces the entry in place and
  whose `delete` removes it; the JS Map key-uniqueness is carried as a
  `Nodup` fact on the key list where a theorem needs it.
* `ws.send(...)` calls are collected as lists of frames: pushes routed via
  `connectedClients.get(uid)` are `(uid, frame)` pairs, frames written
  directly on the inbound connection are collected separately.
* `ws.close()` calls are recorded by the closed handle's identifier.
* Timestamps are natural numbers (`db.now` plays the role of `new Date()`).
-/

/-- Delivery status values used by routes.ts: the string literals
`'sending' | 'sent' | 'delivered' | 'read' | 'error'` of the spec's enum. -/
inductive MsgStatus where
  | sending
  | sent
  | delivered
  | read
  | error
deriving DecidableEq, Repr

/-- Rank of a status in the lifecycle order sending -> sent -> delivered -> read,
used to express monotonicity / regression. -/
def statusRank : MsgStatus → Nat
  | .sending => 0
  | .sent => 1
  | .delivered => 2
  | .read => 3
  | .error => 4

/-- A row of the `users` table (src/unnamed/part_011 lines 7-16). -/
structure UserRec where
  id : Nat
  username : String
  email : String
  password : String
  displayName : String
  status : String
  avatarUrl : Option String
  lastSeen : Nat
deriving DecidableEq, Repr

/-- A row of the `chats` table (src/unnamed/part_011 lines 61-66). -/
structure ChatRec where
  id : Nat
  name : Option String
  isPinned : Bool
  createdAt : Nat
deriving DecidableEq, Repr

/-- A row of the `chat_participants` table (src/unnamed/part_011 lines 76-80). -/
structure ChatParticipantRec where
  id : Nat
  chatId : Nat
  userId : Nat
deriving DecidableEq, Repr

/-- A message row: the columns of the `messages` table
(src/unnamed/part_011 lines 100-109) plus the `status` field routes.ts
reads and writes on message records (see module docstring). -/
structure Message where
  id : Nat
  chatId : Nat
  senderId : Nat
  content : Option String
  mediaUrl : Option String
  mediaType : Option String
  isRead : Bool
  sentAt : Nat
  status : MsgStatus
deriving DecidableEq, Repr

/-- The relational store.  `nextMsgId` models the `serial` id sequence of the
messages table, `now` the clock consulted by `defaultNow()` / `new Date()`. -/
structure DB where
  users : List UserRec
  chats : List ChatRec
  chatParticipants : List ChatParticipantRec
  msgs : List Message
  nextMsgId : Nat
  now : Nat
deriving DecidableEq, Repr

/-- The shape accepted by `insertMessageSchema` after a successful zod parse
(src/unnamed/part_011 lines 124-130: chatId and senderId are required,
content / mediaUrl / mediaType are nullable). -/
structure InsertMessage where
  chatId : Nat
  senderId : Nat
  content : Option String
  mediaUrl : Option String
  mediaType : Option String
deriving DecidableEq, Repr

/-- A raw message payload as received from the network, before zod
validation: every field may be absent. -/
structure RawMessagePayload where
  chatId : Option Nat
  senderId : Option Nat
  content : Option String
  mediaUrl : Option String
  mediaType : Option String
deriving DecidableEq, Repr

/-- `insertMessageSchema.parse`: the drizzle-zod schema requires `chatId` and
`senderId` (notNull integer columns) and passes the three nullable text
columns through; absence of both content and media is accepted. -/
def insertMessageSchemaParse (r : RawMessagePayload) : Except String InsertMessage :=
  match r.chatId, r.senderId with
  | some c, some s => .ok ⟨c, s, r.content, r.mediaUrl, r.mediaType⟩
  | _, _ => .error "Invalid message format"

/-- Failure of the drizzle insert: the foreign-key constraints of the
messages table (`chat_id references chats.id`, `sender_id references
users.id`, src/unnamed/part_011 lines 102-103). -/
inductive DbError where
  | fkViolation
deriving DecidableEq, Repr

/-- `DatabaseStorage.createMessage` (storage.ts lines 540-546):
`insert(messages).values(message).returning()`.  The insert fails when a
foreign key does not reference an existing row; on success the row gets the
next serial id, `isRead` defaulted to false, `sentAt` defaulted to now, and
the initial delivery status `sent` (see module docstring). -/
def createMessage (im : InsertMessage) (db : DB) : Except DbError (Message × DB) :=
  if !(db.chats.any (fun c => c.id == im.chatId)) then .error .fkViolation
  else if !(db.users.any (fun u => u.id == im.senderId)) then .error .fkViolation
  else
    let m : Message :=
      { id := db.nextMsgId, chatId := im.chatId, senderId := im.senderId,
        content := im.content, mediaUrl := im.mediaUrl, mediaType := im.mediaType,
        isRead := false, sentAt := db.now, status := .sent }
    .ok (m, { db with msgs := db.msgs ++ [m], nextMsgId := db.nextMsgId + 1 })

/-- `DatabaseStorage.markMessageAsRead` (storage.ts lines 556-563):
`update(messages).set({ isRead: true }).where(eq(messages.id, messageId)).returning()`,
returning the first updated row or `undefined`. -/
def markMessageAsRead (db : DB) (messageId : Nat) : Option Message × DB :=
  let updated := db.msgs.map (fun m => if m.id == messageId then { m with isRead := true } else m)
  (updated.find? (fun m => m.id == messageId), { db with msgs := updated })

/-- The inline status update routes.ts performs on messages:
`db.update(messages).set({ status }).where(eq(messages.id, id))`
(routes.ts lines 780-783, 854-857, 1478-1481).  An unconditional overwrite. -/
def setMessageStatus (db : DB) (messageId : Nat) (s : MsgStatus) : DB :=
  { db with msgs := db.msgs.map (fun m => if m.id == messageId then { m with status := s } else m) }

/-- `DatabaseStorage.getUser` (storage.ts lines 254-257). -/
def getUser (db : DB) (id : Nat) : Option UserRec :=
  db.users.find? (fun u => u.id == id)

/-- `DatabaseStorage.updateUserStatus` (storage.ts lines 283-285):
sets `status` and `lastSeen: new Date()` on the user row. -/
def updateUserStatus (db : DB) (userId : Nat) (status : String) : DB :=
  let users := db.users.map
    (fun u => if u.id == userId then { u with status := status, lastSeen := db.now } else u)
  { db with users := users }

/-- `DatabaseStorage.getChatParticipants` (storage.ts lines 522-538):
select the participant userIds of the chat, then
`select().from(users).where(inArray(users.id, userIds))`. -/
def getChatParticipants (db : DB) (chatId : Nat) : List UserRec :=
  let userIds := (db.chatParticipants.filter (fun cp => cp.chatId == chatId)).map (fun cp => cp.userId)
  db.users.filter (fun u => userIds.contains u.id)

/-- Status of the stored message row with the given id, as a query on the store. -/
def statusOf (db : DB) (messageId : Nat) : Option MsgStatus :=
  (db.msgs.find? (fun m => m.id == messageId)).map (fun m => m.status)

/-- isRead flag of the stored message row with the given id. -/
def isReadOf (db : DB) (messageId : Nat) : Option Bool :=
  (db.msgs.find? (fun m => m.id == messageId)).map (fun m => m.isRead)

/-- A WebSocket transport handle: an identifier and its
`readyState === WebSocket.OPEN` flag. -/
structure WSHandle where
  id : Nat
  isOpen : Bool
deriving DecidableEq, Repr

/-- An entry of the `connectedClients` map (routes.ts line 663):
`{ ws: WebSocket, clientId: string }`. -/
structure ClientEntry where
  ws : WSHandle
  clientId : String
deriving DecidableEq, Repr

/-- `Map.get`: the value stored under the key, if any. -/
def mapLookup {K V : Type} [BEq K] (l : List (K × V)) (k : K) : Option V :=
  (l.find? (fun p => p.1 == k)).map (fun p => p.2)

/-- `Map.set`: replace the entry for the key in place, or append a new one. -/
def mapSet {K V : Type} [BEq K] (l : List (K × V)) (k : K) (v : V) : List (K × V) :=
  if l.any (fun p => p.1 == k) then l.map (fun p => if p.1 == k then (k, v) else p)
  else l ++ [(k, v)]

/-- `Map.delete`: remove the entry for the key. -/
def mapDelete {K V : Type} [BEq K] (l : List (K × V)) (k : K) : List (K × V) :=
  l.filter (fun p => !(p.1 == k))

/-- Server state shared across connection handlers: the relational store, the
`connectedClients` map (userId to entry) and the `clientIdMap` (clientId to
userId), routes.ts lines 663-665. -/
structure ServerState where
  db : DB
  connectedClients : List (Nat × ClientEntry)
  clientIdMap : List (String × Nat)
deriving DecidableEq, Repr

/-- `isUserConnected` (routes.ts lines 1013-1016): the user has an entry and
its socket's readyState is OPEN. -/
def isUserConnected (st : ServerState) (userId : Nat) : Bool :=
  match mapLookup st.connectedClients userId with
  | some client => client.ws.isOpen
  | none => false

/-- Outbound frames the handlers emit (the frame types of spec section 6 that
the modelled handlers actually produce). -/
inductive Frame where
  | message (m : Message)
  | messageSent (messageId : Nat) (status : MsgStatus)
  | readReceipt (messageId : Nat)
  | userStatus (userId : Nat) (status : String)
  | errorFrame (msg : String)
deriving DecidableEq, Repr

/-- Whether a frame is a `message` push. -/
def Frame.isMessageFrame : Frame → Bool
  | .message _ => true
  | _ => false

/-- Whether a frame is a `message_sent` acknowledgement. -/
def Frame.isMessageSentFrame : Frame → Bool
  | .messageSent _ _ => true
  | _ => false

/-- Whether a frame is a `read` receipt. -/
def Frame.isReadReceiptFrame : Frame → Bool
  | .readReceipt _ => true
  | _ => false

/-- `broadcastUserStatus` (routes.ts lines 1019-1028): send a `user_status`
frame to every connected client whose socket is open. -/
def broadcastUserStatus (clients : List (Nat × ClientEntry)) (userId : Nat) (status : String) :
    List (Nat × Frame) :=
  (clients.filter (fun p => p.2.ws.isOpen)).map (fun p => (p.1, Frame.userStatus userId status))

/-- Result of running one inbound-frame handler: the updated server state,
the frames pushed through `connectedClients` routing (recipient userId paired
with the frame), the frames written directly on the inbound connection, and
the handles on which `close()` was invoked. -/
structure HandlerResult where
  state : ServerState
  pushes : List (Nat × Frame)
  toConn : List Frame
  closes : List Nat
deriving DecidableEq, Repr

/-- `data.payload.clientId || clientId` (routes.ts line 699): JavaScript
falsy-or, the empty string falls back to the URL clientId. -/
def resolveClientId (payloadClientId : Option String) (urlClientId : String) : String :=
  match payloadClientId with
  | some c => if c == "" then urlClientId else c
  | none => urlClientId

/-- The `case 'user_status'` handler (routes.ts lines 696-730): for a truthy
userId, close an existing connection registered with a different clientId and
drop its clientIdMap entry, install the new entry in both maps, set the user
online, and broadcast the online status over the updated map. -/
def wsUserStatusCase (st : ServerState) (ws : WSHandle) (urlClientId : String)
    (payloadUserId : Option Nat) (payloadClientId : Option String) : HandlerResult :=
  match payloadUserId with
  | none => { state := st, pushes := [], toConn := [], closes := [] }
  | some userId =>
    if userId == 0 then { state := st, pushes := [], toConn := [], closes := [] }
    else
      let messageClientId := resolveClientId payloadClientId urlClientId
      let existingConnection := mapLookup st.connectedClients userId
      let closes :=
        match existingConnection with
        | some e => if e.clientId != messageClientId && e.ws.isOpen then [e.ws.id] else []
        | none => []
      let clientIdMap1 :=
        match existingConnection with
        | some e => if e.clientId != messageClientId then mapDelete st.clientIdMap e.clientId
                    else st.clientIdMap
        | none => st.clientIdMap
      let connectedClients1 := mapSet st.connectedClients userId ⟨ws, messageClientId⟩
      let clientIdMap2 := mapSet clientIdMap1 messageClientId userId
      let db1 := updateUserStatus st.db userId "online"
      let st1 : ServerState :=
        { db := db1, connectedClients := connectedClients1, clientIdMap := clientIdMap2 }
      { state := st1, pushes := broadcastUserStatus connectedClients1 userId "online",
        toConn := [], closes := closes }

/-- The `case 'message'` handler (routes.ts lines 732-822) for a connection
bound to `userId`: parse the payload with `insertMessageSchema`, persist it,
push a copy whose status is overridden to `delivered` to every other
connected participant, set the stored status to `delivered` when at least one
other participant is connected, and confirm receipt to the sender's own
socket (if still open) with a `message_sent` frame carrying the final status.
Parse failures and persistence failures are answered with an `error` frame on
the inbound connection. -/
def wsMessageCase (st : ServerState) (userId : Nat) (ws : WSHandle)
    (raw : RawMessagePayload) : HandlerResult :=
  match insertMessageSchemaParse raw with
  | .error _ =>
    { state := st, pushes := [], toConn := [Frame.errorFrame "Invalid message format"],
      closes := [] }
  | .ok validMessage =>
    match createMessage validMessage st.db with
    | .error _ =>
      { state := st, pushes := [], toConn := [Frame.errorFrame "Failed to process message"],
        closes := [] }
    | .ok (savedMessage, db1) =>
      let participants := getChatParticipants db1 savedMessage.chatId
      let st1 : ServerState := { st with db := db1 }
      let messageToSend := { savedMessage with status := MsgStatus.delivered }
      let pushes := (participants.filter
          (fun p => p.id != userId && isUserConnected st1 p.id)).map
        (fun p => (p.id, Frame.message messageToSend))
      let anyReachable := participants.any (fun p => p.id != userId && isUserConnected st1 p.id)
      let messageStatus := if anyReachable then MsgStatus.delivered else MsgStatus.sent
      let db2 := if anyReachable then setMessageStatus db1 savedMessage.id .delivered else db1
      let toConn := if ws.isOpen then [Frame.messageSent savedMessage.id messageStatus] else []
      { state := { st with db := db2 }, pushes := pushes, toConn := toConn, closes := [] }

/-- The `case 'read'` handler (routes.ts lines 843-890) for a connection
bound to `userId` and a truthy messageId: call `markMessageAsRead`; when the
message existed, set its stored status to `read` unconditionally, look up the
message's sender, and push a `read` frame to the sender when the sender
exists, is not the reader, and is connected.  No chat-membership check is
performed on the reader. -/
def wsReadCase (st : ServerState) (userId : Nat) (messageId : Nat) : HandlerResult :=
  if messageId == 0 then { state := st, pushes := [], toConn := [], closes := [] }
  else
    match markMessageAsRead st.db messageId with
    | (none, db1) => { state := { st with db := db1 }, pushes := [], toConn := [], closes := [] }
    | (some updatedMessage, db1) =>
      let db2 := setMessageStatus db1 messageId .read
      let st2 : ServerState := { st with db := db2 }
      let pushes :=
        match getUser db2 updatedMessage.senderId with
        | some sender =>
          if sender.id != userId && isUserConnected st2 sender.id then
            [(sender.id, Frame.readReceipt messageId)]
          else []
        | none => []
      { state := st2, pushes := pushes, toConn := [], closes := [] }

/-- The `ws.on('close')` handler (routes.ts lines 993-1009): for a connection
bound to a truthy userId, set the user offline, delete the user's
`connectedClients` entry unconditionally, and broadcast the offline status.
The `clientIdMap` is not touched and no clientId comparison is made. -/
def wsCloseHandler (st : ServerState) (boundUserId : Option Nat) : HandlerResult :=
  match boundUserId with
  | none => { state := st, pushes := [], toConn := [], closes := [] }
  | some userId =>
    if userId == 0 then { state := st, pushes := [], toConn := [], closes := [] }
    else
      let db1 := updateUserStatus st.db userId "offline"
      let connectedClients1 := mapDelete st.connectedClients userId
      let st1 : ServerState := { st with db := db1, connectedClients := connectedClients1 }
      { state := st1, pushes := broadcastUserStatus connectedClients1 userId "offline",
        toConn := [], closes := [] }

/-- HTTP response of the `POST /api/messages` endpoint. -/
inductive HttpResponse where
  | created (m : Message)
  | badRequest (msg : String)
  | serverError (msg : String)
deriving DecidableEq, Repr

/-- Whether the response is a 201 Created. -/
def HttpResponse.isCreated : HttpResponse → Bool
  | .created _ => true
  | _ => false

/-- Whether the response is a 400 validation failure. -/
def HttpResponse.isBadRequest : HttpResponse → Bool
  | .badRequest _ => true
  | _ => false

/-- Result of the HTTP message endpoint: updated store, WebSocket pushes to
participants, and the HTTP response to the caller. -/
structure HttpResult where
  state : ServerState
  pushes : List (Nat × Frame)
  response : HttpResponse
deriving DecidableEq, Repr

/-- `POST /api/messages` (routes.ts lines 1447-1515): override the body's
senderId with the authenticated user, validate with `insertMessageSchema`,
persist, set the stored status to `delivered` when some other participant is
connected (mutating the response object likewise), push the message to every
other connected participant, and answer 201 with the message record.  A zod
failure answers 400, any other failure answers 500.  No `message_sent` frame
is emitted on this path. -/
def httpPostMessages (st : ServerState) (currentUserId : Nat)
    (body : RawMessagePayload) : HttpResult :=
  let messageData := { body with senderId := some currentUserId }
  match insertMessageSchemaParse messageData with
  | .error _ =>
    { state := st, pushes := [], response := .badRequest "Invalid message data" }
  | .ok validMessage =>
    match createMessage validMessage st.db with
    | .error _ =>
      { state := st, pushes := [], response := .serverError "Error creating message" }
    | .ok (newMessage, db1) =>
      let participants := getChatParticipants db1 newMessage.chatId
      let st1 : ServerState := { st with db := db1 }
      let anyReachable :=
        participants.any (fun p => p.id != currentUserId && isUserConnected st1 p.id)
      let db2 := if anyReachable then setMessageStatus db1 newMessage.id .delivered else db1
      let newMessage1 := if anyReachable then { newMessage with status := MsgStatus.delivered }
                         else newMessage
      let pushes := (participants.filter
          (fun p => p.id != currentUserId && isUserConnected st1 p.id)).map
        (fun p => (p.id, Frame.message newMessage1))
      { state := { st with db := db2 }, pushes := pushes, response := .created newMessage1 }

/-! ### Concrete fixtures used by witnesses and counterexamples -/

/-- A concrete user row. -/
def mkUser (i : Nat) : UserRec := ⟨i, "u", "e", "p", "d", "offline", none, 0⟩

/-- A store with three users, one chat whose participants are users 1 and 2
(user 3 is not a participant), and no messages yet. -/
def db0 : DB :=
  ⟨[mkUser 1, mkUser 2, mkUser 3], [⟨1, none, false, 0⟩], [⟨1, 1, 1⟩, ⟨2, 1, 2⟩], [], 1, 100⟩

/-- User 1's open socket. -/
def wsA : WSHandle := ⟨1, true⟩

/-- User 2's open socket. -/
def wsB : WSHandle := ⟨2, true⟩

/-- A fresh socket used for duplicate-connection scenarios. -/
def wsNew : WSHandle := ⟨9, true⟩

/-- Server state over `db0` with users 1 and 2 connected. -/
def st0 : ServerState :=
  ⟨db0, [(1, ⟨wsA, "cA"⟩), (2, ⟨wsB, "cB"⟩)], [("cA", 1), ("cB", 2)]⟩

/-- A well-formed text message payload for chat 1 from user 1. -/
def rawHi : RawMessagePayload := ⟨some 1, some 1, some "hi", none, none⟩

/-- A payload with valid references but neither content nor media. -/
def rawEmpty : RawMessagePayload := ⟨some 1, some 1, none, none, none⟩

/-- A stored message in chat 1 from user 1, not yet read. -/
def msg1 : Message := ⟨1, 1, 1, some "m", none, none, false, 50, .sent⟩

/-- `db0` with `msg1` stored. -/
def dbM : DB :=
  ⟨db0.users, db0.chats, db0.chatParticipants, [msg1], 2, 100⟩

/-- Server state over `dbM` with users 1 and 2 connected. -/
def stM : ServerState :=
  ⟨dbM, [(1, ⟨wsA, "cA"⟩), (2, ⟨wsB, "cB"⟩)], [("cA", 1), ("cB", 2)]⟩

/-- `db0` with a message whose status has already reached `read`. -/
def msgRead : Message := ⟨1, 1, 1, some "m", none, none, true, 50, .read⟩

/-- A store holding `msgRead`. -/
def dbRead : DB :=
  ⟨db0.users, db0.chats, db0.chatParticipants, [msgRead], 2, 100⟩

/-! ### Helper lemmas about the list operations the store is built from -/

/-- Unfolding of `find?` over a cons cell for a keyed message lookup. -/
theorem find?_msg_cons (a : Message) (t : List Message) (k : Nat) :
    (a :: t).find? (fun m => m.id == k)
      = if (a.id == k) = true then some a else t.find? (fun m => m.id == k) := by
  by_cases h : (a.id == k) = true
  · rw [if_pos h]
    exact List.find?_cons_of_pos t h
  · rw [if_neg h]
    exact List.find?_cons_of_neg t h

/-- Unfolding of `find?` over a cons cell for a keyed pair lookup. -/
theorem find?_pair_cons {K V : Type} [BEq K] (a : K × V) (t : List (K × V)) (k : K) :
    (a :: t).find? (fun p => p.1 == k)
      = if (a.1 == k) = true then some a else t.find? (fun p => p.1 == k) := by
  by_cases h : (a.1 == k) = true
  · rw [if_pos h]
    exact List.find?_cons_of_pos t h
  · rw [if_neg h]
    exact List.find?_cons_of_neg t h

/-- A keyed rewrite of a list of messages commutes with looking up the key,
provided the rewrite preserves ids. -/
theorem find?_map_keyed (l : List Message) (mid : Nat) (g : Message → Message)
    (hg : ∀ m, (g m).id = m.id) :
    (l.map (fun m => if m.id == mid then g m else m)).find? (fun m => m.id == mid)
      = (l.find? (fun m => m.id == mid)).map g := by
  induction l with
  | nil => rfl
  | cons a t ih =>
    rw [List.map_cons]
    by_cases h : a.id = mid
    · have hb : (a.id == mid) = true := beq_iff_eq.mpr h
      have hgb : ((g a).id == mid) = true := beq_iff_eq.mpr (by rw [hg]; exact h)
      rw [if_pos hb, find?_msg_cons, if_pos hgb, find?_msg_cons, if_pos hb]
      rfl
    · have hb : ¬ (a.id == mid) = true := by simp [h]
      rw [if_neg hb, find?_msg_cons, if_neg hb, find?_msg_cons, if_neg hb, ih]

/-- Looking up a key absent from every element of a keyed rewrite finds
nothing changed for other keys. -/
theorem find?_map_keyed_ne (l : List Message) (mid k : Nat) (g : Message → Message)
    (hg : ∀ m, (g m).id = m.id) (hk : k ≠ mid) :
    (l.map (fun m => if m.id == mid then g m else m)).find? (fun m => m.id == k)
      = (l.find? (fun m => m.id == k)).map (fun m => if m.id == mid then g m else m) := by
  induction l with
  | nil => rfl
  | cons a t ih =>
    rw [List.map_cons]
    by_cases h : a.id = mid
    · have hb : (a.id == mid) = true := beq_iff_eq.mpr h
      have hga : ¬ ((g a).id == k) = true := by simp [hg, h]; omega
      have hak : ¬ (a.id == k) = true := by simp [h]; omega
      rw [if_pos hb, find?_msg_cons, if_neg hga, find?_msg_cons, if_neg hak, ih]
    · have hb : ¬ (a.id == mid) = true := by simp [h]
      by_cases h2 : a.id = k
      · have hak : (a.id == k) = true := beq_iff_eq.mpr h2
        rw [if_neg hb, find?_msg_cons, if_pos hak, find?_msg_cons, if_pos hak]
        simp [h]
      · have hak : ¬ (a.id == k) = true := by simp [h2]
        rw [if_neg hb, find?_msg_cons, if_neg hak, find?_msg_cons, if_neg hak, ih]

/-- Appending a row with a fresh id and looking the id up finds that row. -/
theorem find?_append_fresh (l : List Message) (m : Message)
    (hfresh : ∀ x ∈ l, x.id ≠ m.id) :
    (l ++ [m]).find? (fun x => x.id == m.id) = some m := by
  rw [List.find?_append]
  have h1 : l.find? (fun x => x.id == m.id) = none := by
    rw [List.find?_eq_none]
    intro x hx
    simp [hfresh x hx]
  simp [h1, List.find?_cons]

/-- In a list whose keys are pairwise distinct, exactly one element carries
the key of a member. -/
theorem countP_key_eq_one {α β : Type} [BEq β] [LawfulBEq β] (f : α → β) (l : List α)
    (hnd : (l.map f).Nodup) (a : α) (ha : a ∈ l) :
    l.countP (fun x => f x == f a) = 1 := by
  induction l with
  | nil => cases ha
  | cons b t ih =>
    rw [List.map_cons, List.nodup_cons] at hnd
    rcases List.mem_cons.mp ha with h | h
    · subst h
      have hz : t.countP (fun x => f x == f a) = 0 := by
        rw [List.countP_eq_zero]
        intro x hx hxa
        exact hnd.1 (beq_iff_eq.mp hxa ▸ List.mem_map_of_mem f hx)
      rw [List.countP_cons_of_pos (fun x => f x == f a) t (by simp), hz]
    · have hne : ¬ (f b == f a) = true := by
        intro hEq
        exact hnd.1 (beq_iff_eq.mp hEq ▸ List.mem_map_of_mem f h)
      rw [List.countP_cons_of_neg (fun x => f x == f a) t hne]
      exact ih hnd.2 h

/-- `Map.set` then `Map.get` on the same key yields the new value. -/
theorem mapLookup_mapSet_self {K V : Type} [BEq K] [LawfulBEq K]
    (l : List (K × V)) (k : K) (v : V) :
    mapLookup (mapSet l k v) k = some v := by
  unfold mapSet
  by_cases h : l.any (fun p => p.1 == k)
  · simp only [h, if_true]
    induction l with
    | nil => simp at h
    | cons a t ih =>
      by_cases ha : a.1 = k
      · simp [mapLookup, List.find?_cons, ha]
      · have ht : t.any (fun p => p.1 == k) := by
          rcases List.any_eq_true.mp h with ⟨x, hx, hxk⟩
          rcases List.mem_cons.mp hx with rfl | hx2
          · exact absurd (beq_iff_eq.mp hxk) ha
          · exact List.any_eq_true.mpr ⟨x, hx2, hxk⟩
        have := ih ht
        simpa [mapLookup, List.find?_cons, ha] using this
  · simp only [h, if_false]
    have hn : l.find? (fun p => p.1 == k) = none := by
      rw [List.find?_eq_none]
      intro x hx hxk
      exact h (List.any_eq_true.mpr ⟨x, hx, hxk⟩)
    simp [mapLookup, List.find?_append, hn, List.find?_cons]

/-- `Map.delete` then `Map.get` on the same key finds nothing. -/
theorem mapLookup_mapDelete_self {K V : Type} [BEq K] [LawfulBEq K]
    (l : List (K × V)) (k : K) :
    mapLookup (mapDelete l k) k = none := by
  unfold mapLookup mapDelete
  have : (l.filter (fun p => !(p.1 == k))).find? (fun p => p.1 == k) = none := by
    rw [List.find?_eq_none]
    intro x hx hxk
    have := List.of_mem_filter hx
    simp [hxk] at this
  simp [this]

/-- `Map.set` preserves distinctness of the key list. -/
theorem mapSet_keys_nodup {K V : Type} [BEq K] [LawfulBEq K]
    (l : List (K × V)) (k : K) (v : V) (hnd : (l.map Prod.fst).Nodup) :
    ((mapSet l k v).map Prod.fst).Nodup := by
  unfold mapSet
  by_cases h : (l.any fun p => p.1 == k) = true
  · rw [if_pos h]
    have hfst : (l.map (fun p => if p.1 == k then (k, v) else p)).map Prod.fst
        = l.map Prod.fst := by
      rw [List.map_map]
      apply List.map_congr_left
      intro p _
      by_cases hp : p.1 = k
      · simp [hp]
      · simp [hp]
    rw [hfst]
    exact hnd
  · rw [if_neg h, List.map_append]
    simp only [List.map_cons, List.map_nil]
    rw [List.nodup_append]
    refine ⟨hnd, List.nodup_singleton k, ?_⟩
    intro x hx hxk
    rw [List.mem_singleton] at hxk
    subst hxk
    rcases List.mem_map.mp hx with ⟨p, hp, hpk⟩
    exact h (List.any_eq_true.mpr ⟨p, hp, beq_iff_eq.mpr hpk⟩)

/-- On a map with distinct keys that contains the key, `Map.set` leaves
exactly one entry for the key: the new one. -/
theorem mapSet_filter_key {K V : Type} [BEq K] [LawfulBEq K]
    (l : List (K × V)) (k : K) (v : V) (hnd : (l.map Prod.fst).Nodup) :
    (mapSet l k v).filter (fun p => p.1 == k) = [(k, v)] := by
  unfold mapSet
  by_cases h : (l.any fun p => p.1 == k) = true
  · rw [if_pos h]
    rcases List.any_eq_true.mp h with ⟨w, hw, hwk⟩
    clear h
    induction l with
    | nil => cases hw
    | cons a t ih =>
      rw [List.map_cons, List.nodup_cons] at hnd
      rw [List.map_cons]
      by_cases ha : a.1 = k
      · have hab : (a.1 == k) = true := beq_iff_eq.mpr ha
        have ht2 : (t.map (fun p => if p.1 == k then (k, v) else p)).filter
            (fun p => p.1 == k) = [] := by
          rw [List.filter_eq_nil_iff]
          intro p hp hpk
          rcases List.mem_map.mp hp with ⟨q, hq, hqe⟩
          by_cases hqk : q.1 = k
          · refine hnd.1 ?_
            rw [ha, ← hqk]
            exact List.mem_map_of_mem _ hq
          · rw [← hqe] at hpk
            rw [if_neg (by simp [hqk])] at hpk
            exact hqk (beq_iff_eq.mp hpk)
        rw [if_pos hab, List.filter_cons_of_pos (by simp), ht2]
      · have hab : ¬ (a.1 == k) = true := by simp [ha]
        rcases List.mem_cons.mp hw with rfl | hw2
        · exact absurd (beq_iff_eq.mp hwk) ha
        · rw [if_neg hab, List.filter_cons, if_neg hab]
          exact ih hnd.2 hw2
  · rw [if_neg h]
    have hl : l.filter (fun p => p.1 == k) = [] := by
      rw [List.filter_eq_nil_iff]
      intro p hp hpk
      exact h (List.any_eq_true.mpr ⟨p, hp, hpk⟩)
    rw [List.filter_append, hl, List.nil_append, List.filter_cons_of_pos (by simp)]
    rfl

/-! ### Bridge lemmas about the embedded operations -/

/-- Elimination form of a successful `createMessage`: the inserted row and
the resulting store. -/
theorem createMessage_ok_elim {im : InsertMessage} {db : DB} {m : Message} {db1 : DB}
    (h : createMessage im db = .ok (m, db1)) :
    m.id = db.nextMsgId ∧ m.chatId = im.chatId ∧ m.senderId = im.senderId
    ∧ m.content = im.content ∧ m.mediaUrl = im.mediaUrl ∧ m.mediaType = im.mediaType
    ∧ m.isRead = false ∧ m.sentAt = db.now ∧ m.status = MsgStatus.sent
    ∧ db1.users = db.users ∧ db1.chats = db.chats
    ∧ db1.chatParticipants = db.chatParticipants
    ∧ db1.msgs = db.msgs ++ [m] ∧ db1.nextMsgId = db.nextMsgId + 1 ∧ db1.now = db.now := by
  unfold createMessage at h
  by_cases h1 : (db.chats.any fun c => c.id == im.chatId) = true
  · by_cases h2 : (db.users.any fun u => u.id == im.senderId) = true
    · rw [if_neg (by simp [h1]), if_neg (by simp [h2])] at h
      injection h with h
      injection h with hm hdb
      subst hm
      subst hdb
      refine ⟨rfl, rfl, rfl, rfl, rfl, rfl, rfl, rfl, rfl, rfl, rfl, rfl, rfl, rfl, rfl⟩
    · rw [if_neg (by simp [h1])] at h
      rw [if_pos (by simp [Bool.eq_false_iff.mpr h2])] at h
      cases h
  · rw [if_pos (by simp [Bool.eq_false_iff.mpr h1])] at h
    cases h

/-- A failed `createMessage` is exactly a dangling foreign key. -/
theorem createMessage_error_iff (im : InsertMessage) (db : DB) :
    createMessage im db = .error .fkViolation
      ↔ ((db.chats.any fun c => c.id == im.chatId) = false
          ∨ (db.users.any fun u => u.id == im.senderId) = false) := by
  unfold createMessage
  by_cases h1 : (db.chats.any fun c => c.id == im.chatId) = true
  · by_cases h2 : (db.users.any fun u => u.id == im.senderId) = true
    · rw [if_neg (by simp [h1]), if_neg (by simp [h2])]
      simp [h1, h2]
    · rw [if_neg (by simp [h1]), if_pos (by simp [Bool.eq_false_iff.mpr h2])]
      simp [Bool.eq_false_iff.mpr h2]
  · rw [if_pos (by simp [Bool.eq_false_iff.mpr h1])]
    simp [Bool.eq_false_iff.mpr h1]

/-- `setMessageStatus` rewrites the status of the looked-up row. -/
theorem statusOf_setMessageStatus {db : DB} {mid : Nat} {m0 : Message}
    (h : db.msgs.find? (fun m => m.id == mid) = some m0) (s : MsgStatus) :
    statusOf (setMessageStatus db mid s) mid = some s := by
  unfold statusOf setMessageStatus
  rw [find?_map_keyed db.msgs mid (fun m => { m with status := s }) (fun m => rfl), h]
  rfl

/-- `getChatParticipants` only reads the users and participants tables. -/
theorem getChatParticipants_congr {db1 db2 : DB} (hu : db1.users = db2.users)
    (hp : db1.chatParticipants = db2.chatParticipants) (c : Nat) :
    getChatParticipants db1 c = getChatParticipants db2 c := by
  unfold getChatParticipants
  rw [hu, hp]

/-- `getUser` only reads the users table. -/
theorem getUser_congr {db1 db2 : DB} (hu : db1.users = db2.users) (i : Nat) :
    getUser db1 i = getUser db2 i := by
  unfold getUser
  rw [hu]

/-- The boolean reachability test of the fan-out loops, as an existential. -/
theorem any_reachable_iff (parts : List UserRec) (u : Nat) (connB : Nat → Bool) :
    (parts.any fun x => x.id != u && connB x.id) = true
      ↔ ∃ p ∈ parts, p.id ≠ u ∧ connB p.id = true := by
  rw [List.any_eq_true]
  constructor
  · rintro ⟨p, hp, h⟩
    rw [Bool.and_eq_true, bne_iff_ne] at h
    exact ⟨p, hp, h⟩
  · rintro ⟨p, hp, h1, h2⟩
    exact ⟨p, hp, by rw [Bool.and_eq_true, bne_iff_ne]; exact ⟨h1, h2⟩⟩

/-- Each reachable participant other than the submitter occurs exactly once
in a fan-out push list (participant ids being distinct). -/
theorem fanout_countP (parts : List UserRec) (u : Nat) (fr : Frame) (connB : Nat → Bool)
    (hnd : (parts.map (fun x => x.id)).Nodup) (p : UserRec) (hp : p ∈ parts)
    (hpu : p.id ≠ u) (hconn : connB p.id = true) :
    (((parts.filter (fun x => x.id != u && connB x.id)).map
        (fun x => (x.id, fr))).countP (fun q => q.1 == p.id)) = 1 := by
  rw [List.countP_map]
  have hcomp : (((fun q : Nat × Frame => q.1 == p.id) ∘ fun x : UserRec => (x.id, fr)))
      = fun x : UserRec => x.id == p.id := rfl
  rw [hcomp, List.countP_filter]
  have hcong : parts.countP (fun a => (a.id == p.id) && (a.id != u && connB a.id))
      = parts.countP (fun a => a.id == p.id) := by
    apply List.countP_congr
    intro a ha
    by_cases hid : a.id = p.id
    · have hap : a = p := List.inj_on_of_nodup_map hnd ha hp hid
      subst hap
      simp [hpu, hconn]
    · simp [hid]
  rw [hcong]
  exact countP_key_eq_one (fun x => x.id) parts hnd p hp

/-- Members of a fan-out push list are message frames addressed to reachable
participants other than the submitter. -/
theorem fanout_mem (parts : List UserRec) (u : Nat) (fr : Frame) (connB : Nat → Bool)
    (q : Nat × Frame)
    (hq : q ∈ (parts.filter (fun x => x.id != u && connB x.id)).map (fun x => (x.id, fr))) :
    q.2 = fr ∧ q.1 ≠ u ∧ connB q.1 = true := by
  rcases List.mem_map.mp hq with ⟨x, hx, hxe⟩
  rcases List.mem_filter.mp hx with ⟨hxm, hxc⟩
  rw [Bool.and_eq_true, bne_iff_ne] at hxc
  subst hxe
  exact ⟨rfl, hxc.1, hxc.2⟩

/-- A fan-out push list contains no `message_sent` frame. -/
theorem fanout_no_messageSent (parts : List UserRec) (u : Nat) (m : Message)
    (connB : Nat → Bool) :
    (((parts.filter (fun x => x.id != u && connB x.id)).map
        (fun x => (x.id, Frame.message m))).countP (fun q => q.2.isMessageSentFrame)) = 0 := by
  rw [List.countP_eq_zero]
  intro q hq
  rcases List.mem_map.mp hq with ⟨x, hx, hxe⟩
  subst hxe
  simp [Frame.isMessageSentFrame]

/-- Participant ids inherit distinctness from user-table ids. -/
theorem participants_nodup (db : DB) (c : Nat)
    (hnd : (db.users.map (fun x => x.id)).Nodup) :
    ((getChatParticipants db c).map (fun x => x.id)).Nodup := by
  unfold getChatParticipants
  exact List.Nodup.sublist (List.Sublist.map _ (List.filter_sublist db.users)) hnd

/-- A raw payload whose senderId already names the submitter is unchanged by
the senderId override of the HTTP endpoint. -/
theorem raw_senderId_override (raw : RawMessagePayload) (u : Nat)
    (h : raw.senderId = some u) : { raw with senderId := some u } = raw := by
  cases raw
  simp_all

/-- `isUserConnected` ignores the relational store. -/
theorem isUserConnected_db_update (st : ServerState) (d : DB) (x : Nat) :
    isUserConnected { st with db := d } x = isUserConnected st x := rfl

/-! ### Claim C1 -/

/-- C1 counterexample: the code's status update is unguarded: applied to a
message whose stored status is already `read`, writing `delivered` regresses
the stored status and changes the record, so a backward move is neither
rejected nor a no-op. -/
theorem C1_counterexample :
    statusOf dbRead 1 = some MsgStatus.read
    ∧ statusOf (setMessageStatus dbRead 1 .delivered) 1 = some MsgStatus.delivered
    ∧ statusRank MsgStatus.delivered < statusRank MsgStatus.read
    ∧ setMessageStatus dbRead 1 .delivered ≠ dbRead := by
  refine ⟨rfl, rfl, by decide, by decide⟩

/-- C1 (amended): the code's status update is an unconditional overwrite:
after `setMessageStatus db mid s` the stored status of row `mid` is `s`
whatever it was before, so attempting to move the status backward overwrites
the record instead of leaving it unchanged; no monotonicity is enforced. -/
theorem C1_setStatus_overwrites (db : DB) (mid : Nat) (s : MsgStatus) (m0 : Message)
    (h : db.msgs.find? (fun m => m.id == mid) = some m0) :
    statusOf (setMessageStatus db mid s) mid = some s :=
  statusOf_setMessageStatus h s

/-- C1 witness: the overwrite theorem applied to a concrete stored message. -/
theorem C1_setStatus_overwrites_witness :
    statusOf (setMessageStatus dbRead 1 .delivered) 1 = some MsgStatus.delivered :=
  C1_setStatus_overwrites dbRead 1 .delivered msgRead rfl

/-! ### Claim C3 -/

/-- C3 counterexample: user 1 re-registers on a fresh socket with a different
client instance id (the fresh entry is installed); the stale connection's
close handler nevertheless deletes the fresh registration, because the close
handler compares no client instance identifiers. -/
theorem C3_counterexample :
    mapLookup (wsUserStatusCase st0 wsNew "" (some 1) (some "cNEW")).state.connectedClients 1
      = some ⟨wsNew, "cNEW"⟩
    ∧ mapLookup (wsCloseHandler (wsUserStatusCase st0 wsNew "" (some 1)
        (some "cNEW")).state (some 1)).state.connectedClients 1 = none := by
  refine ⟨by decide, by decide⟩

/-- C3 (amended): the transport-close handler removes the bound user's
registry entry unconditionally — no comparison with the registered entry's
client instance identifier — so a slow-closing stale handle deletes a fresh
registration. -/
theorem C3_close_deletes_unconditionally (st : ServerState) (u : Nat) (e : ClientEntry)
    (hu : u ≠ 0) (he : mapLookup st.connectedClients u = some e) :
    mapLookup (wsCloseHandler st (some u)).state.connectedClients u = none := by
  simp only [wsCloseHandler]
  rw [if_neg (by simp [hu])]
  exact mapLookup_mapDelete_self st.connectedClients u

/-- C3 witness: the unconditional deletion applied to a registered user. -/
theorem C3_close_deletes_witness :
    mapLookup (wsCloseHandler stM (some 1)).state.connectedClients 1 = none :=
  C3_close_deletes_unconditionally stM 1 ⟨wsA, "cA"⟩ (by decide) rfl

/-! ### Claim C10 -/

/-- C10: `markMessageAsRead` returns `none` exactly when no stored message
has the id; it leaves the other tables and the id sequence untouched, leaves
every message with a different id unchanged, and changes nothing of the
targeted message except setting its `isRead` flag. -/
theorem C10_markRead_frame (db : DB) (mid : Nat) :
    ((markMessageAsRead db mid).1 = none ↔ ∀ m ∈ db.msgs, m.id ≠ mid)
    ∧ (markMessageAsRead db mid).2.users = db.users
    ∧ (markMessageAsRead db mid).2.chats = db.chats
    ∧ (markMessageAsRead db mid).2.chatParticipants = db.chatParticipants
    ∧ (markMessageAsRead db mid).2.nextMsgId = db.nextMsgId
    ∧ (markMessageAsRead db mid).2.now = db.now
    ∧ List.Forall₂ (fun m m1 => m1.id = m.id ∧ m1.chatId = m.chatId
        ∧ m1.senderId = m.senderId ∧ m1.content = m.content ∧ m1.mediaUrl = m.mediaUrl
        ∧ m1.mediaType = m.mediaType ∧ m1.sentAt = m.sentAt ∧ m1.status = m.status
        ∧ (m.id ≠ mid → m1 = m) ∧ (m.id = mid → m1.isRead = true))
        db.msgs (markMessageAsRead db mid).2.msgs := by
  refine ⟨?_, rfl, rfl, rfl, rfl, rfl, ?_⟩
  · unfold markMessageAsRead
    rw [List.find?_eq_none]
    constructor
    · intro h m hm hEq
      have hmem : (if (m.id == mid) = true then { m with isRead := true } else m)
          ∈ db.msgs.map (fun m => if m.id == mid then { m with isRead := true } else m) :=
        List.mem_map_of_mem _ hm
      have hc := h _ hmem
      rw [if_pos (beq_iff_eq.mpr hEq)] at hc
      exact hc (beq_iff_eq.mpr hEq)
    · intro h x hx
      rcases List.mem_map.mp hx with ⟨m, hm, hme⟩
      subst hme
      by_cases hEq : m.id = mid
      · exact absurd hEq (h m hm)
      · rw [if_neg (by simp [hEq])]
        simp [hEq]
  · unfold markMessageAsRead
    rw [List.forall₂_map_right_iff, List.forall₂_same]
    intro m hm
    by_cases hEq : m.id = mid
    · rw [if_pos (beq_iff_eq.mpr hEq)]
      exact ⟨rfl, rfl, rfl, rfl, rfl, rfl, rfl, rfl, fun hc => absurd hEq hc, fun _ => rfl⟩
    · rw [if_neg (by simp [hEq])]
      exact ⟨rfl, rfl, rfl, rfl, rfl, rfl, rfl, rfl, fun _ => rfl, fun hc => absurd hc hEq⟩

/-- C10 witness: the frame theorem applied at a concrete store and an absent
message id. -/
theorem C10_markRead_frame_witness : (markMessageAsRead dbM 5).1 = none :=
  (C10_markRead_frame dbM 5).1.mpr (by decide)

/-! ### Claim C8 -/

/-- C8 counterexample: a message payload with valid references but neither
content nor media is accepted and persisted by the durable path (201
Created), instead of failing with a ValidationError. -/
theorem C8_counterexample :
    rawEmpty.content = none ∧ rawEmpty.mediaUrl = none ∧ rawEmpty.mediaType = none
    ∧ (httpPostMessages st0 1 rawEmpty).response.isCreated = true :=
  ⟨rfl, rfl, rfl, rfl⟩

/-- C8 (amended): message creation on the durable path fails with a
validation error (400) exactly when the payload has no chatId (the senderId
is overridden with the authenticated user); a chatId or senderId that
references no existing row fails as a generic persistence error (500), not a
validation error; content and media both absent is accepted; on success the
inserted row carries the next identity, the initial delivery status `sent`,
an unread flag, and the current timestamp. -/
theorem C8_validation_behavior (st : ServerState) (u : Nat) (body : RawMessagePayload) :
    ((httpPostMessages st u body).response.isBadRequest = true ↔ body.chatId = none)
    ∧ (∀ c, body.chatId = some c →
        ((st.db.chats.any fun x => x.id == c) = false
          ∨ (st.db.users.any fun x => x.id == u) = false) →
        (httpPostMessages st u body).response = .serverError "Error creating message")
    ∧ (∀ vm saved db1,
        insertMessageSchemaParse { body with senderId := some u } = .ok vm →
        createMessage vm st.db = .ok (saved, db1) →
        saved.id = st.db.nextMsgId ∧ saved.status = MsgStatus.sent
          ∧ saved.isRead = false ∧ saved.sentAt = st.db.now) := by
  rcases hbc : body.chatId with _ | c
  · refine ⟨?_, ?_, ?_⟩
    · simp [httpPostMessages, insertMessageSchemaParse, hbc, HttpResponse.isBadRequest]
    · intro c hc
      exact Option.noConfusion hc
    · intro vm saved db1 hp
      rw [insertMessageSchemaParse] at hp
      simp [hbc] at hp
  · have hvm : insertMessageSchemaParse ⟨some c, some u, body.content, body.mediaUrl,
        body.mediaType⟩ = .ok ⟨c, u, body.content, body.mediaUrl, body.mediaType⟩ := rfl
    cases hcm : createMessage ⟨c, u, body.content, body.mediaUrl, body.mediaType⟩ st.db with
    | error e =>
      cases e
      refine ⟨?_, ?_, ?_⟩
      · simp [httpPostMessages, hvm, hcm, HttpResponse.isBadRequest, hbc]
      · intro c2 hc2 hany
        injection hc2 with hc2
        subst hc2
        simp [httpPostMessages, hbc, hvm, hcm]
      · intro vm saved db1 hp hcr
        rw [hvm] at hp
        injection hp with hp
        subst hp
        rw [hcm] at hcr
        cases hcr
    | ok pr =>
      refine ⟨?_, ?_, ?_⟩
      · simp [httpPostMessages, hvm, hcm, HttpResponse.isBadRequest, hbc]
      · intro c2 hc2 hany
        injection hc2 with hc2
        subst hc2
        have hzero : createMessage ⟨c, u, body.content, body.mediaUrl, body.mediaType⟩ st.db
            = .error .fkViolation := (createMessage_error_iff _ _).mpr hany
        rw [hzero] at hcm
        cases hcm
      · intro vm saved db1 hp hcr
        rw [hvm] at hp
        injection hp with hp
        subst hp
        have h := createMessage_ok_elim hcr
        exact ⟨h.1, h.2.2.2.2.2.2.2.2.1, h.2.2.2.2.2.2.1, h.2.2.2.2.2.2.2.1⟩

/-- C8 witness: a payload without chatId is rejected as a validation
failure. -/
theorem C8_validation_behavior_witness :
    (httpPostMessages st0 1 ⟨none, some 1, some "x", none, none⟩).response.isBadRequest = true :=
  (C8_validation_behavior st0 1 ⟨none, some 1, some "x", none, none⟩).1.mpr rfl

/-! ### Read-path lemmas -/

/-- `markMessageAsRead` on a present row returns the row with `isRead` set. -/
theorem markMessageAsRead_found {db : DB} {mid : Nat} {m0 : Message}
    (hfind : db.msgs.find? (fun m => m.id == mid) = some m0) :
    (markMessageAsRead db mid).1 = some { m0 with isRead := true } := by
  show (db.msgs.map (fun m => if m.id == mid then { m with isRead := true } else m)).find?
      (fun m => m.id == mid) = some { m0 with isRead := true }
  rw [find?_map_keyed db.msgs mid (fun m => { m with isRead := true }) (fun m => rfl), hfind]
  rfl

/-- `isUserConnected` only depends on the connection map. -/
theorem isUserConnected_congr {st1 st2 : ServerState}
    (h : st1.connectedClients = st2.connectedClients) (x : Nat) :
    isUserConnected st1 x = isUserConnected st2 x := by
  unfold isUserConnected
  rw [h]

/-- Behaviour of the `read` handler when the message exists: the store gets
the `isRead` flag and then the unconditional `read` status write; the
connection maps are untouched; the only possible push is the receipt to the
stored sender, emitted exactly when the sender is a different, connected
user.  No condition inspects the previous `isRead` or status value, and none
inspects chat membership of the reader. -/
theorem wsReadCase_found_spec (st : ServerState) (u mid : Nat) (m0 : Message)
    (hmid : mid ≠ 0)
    (hfind : st.db.msgs.find? (fun m => m.id == mid) = some m0) :
    (wsReadCase st u mid).state.db
        = setMessageStatus (markMessageAsRead st.db mid).2 mid .read
    ∧ (wsReadCase st u mid).state.connectedClients = st.connectedClients
    ∧ (wsReadCase st u mid).state.clientIdMap = st.clientIdMap
    ∧ (wsReadCase st u mid).toConn = []
    ∧ (wsReadCase st u mid).pushes = (match getUser st.db m0.senderId with
        | some sender => if sender.id != u && isUserConnected st sender.id
            then [(sender.id, Frame.readReceipt mid)] else []
        | none => []) := by
  simp only [wsReadCase]
  have hpair : markMessageAsRead st.db mid
      = ((markMessageAsRead st.db mid).1, (markMessageAsRead st.db mid).2) := rfl
  rw [if_neg (by simp [hmid]), hpair, markMessageAsRead_found hfind]
  refine ⟨rfl, rfl, rfl, rfl, ?_⟩
  have hg : getUser (setMessageStatus (markMessageAsRead st.db mid).2 mid .read) m0.senderId
      = getUser st.db m0.senderId := getUser_congr rfl m0.senderId
  have hc : ∀ x, isUserConnected
      { st with db := setMessageStatus (markMessageAsRead st.db mid).2 mid .read } x
      = isUserConnected st x := fun x => isUserConnected_congr rfl x
  simp only [hg, hc]

/-! ### Claim C6 -/

/-- C6 counterexample: the same `read` frame processed twice for message 1
(sender user 1 connected, reader user 2) pushes a read receipt to the sender
both times: the handler never checks whether the status actually changed, so
the second processing produces a second receipt push rather than none. -/
theorem C6_counterexample :
    (wsReadCase stM 2 1).pushes = [(1, Frame.readReceipt 1)]
    ∧ (wsReadCase (wsReadCase stM 2 1).state 2 1).pushes = [(1, Frame.readReceipt 1)] := by
  refine ⟨by decide, by decide⟩

/-- C6 (amended): on an inbound `read` frame the server calls `markRead` and
pushes a `read` frame to the stored sender exactly when the message exists
and the sender is connected and distinct from the reader — with no check
that the status actually changed; the push goes to the sender only.
Processing the same frame twice therefore pushes twice. -/
theorem C6_read_receipt_not_idempotent (st : ServerState) (u mid : Nat) (m0 : Message)
    (sender : UserRec)
    (hmid : mid ≠ 0)
    (hfind : st.db.msgs.find? (fun m => m.id == mid) = some m0)
    (hsender : getUser st.db m0.senderId = some sender)
    (hne : sender.id ≠ u)
    (hconn : isUserConnected st sender.id = true) :
    (wsReadCase st u mid).pushes = [(sender.id, Frame.readReceipt mid)]
    ∧ (wsReadCase (wsReadCase st u mid).state u mid).pushes
        = [(sender.id, Frame.readReceipt mid)] := by
  have hcond : (sender.id != u && isUserConnected st sender.id) = true := by
    rw [Bool.and_eq_true, bne_iff_ne]
    exact ⟨hne, hconn⟩
  have spec1 := wsReadCase_found_spec st u mid m0 hmid hfind
  constructor
  · rw [spec1.2.2.2.2, hsender]
    simp [hcond]
  · have hfind1 : (wsReadCase st u mid).state.db.msgs.find? (fun m => m.id == mid)
        = some { m0 with isRead := true, status := MsgStatus.read } := by
      rw [spec1.1]
      show (((markMessageAsRead st.db mid).2.msgs.map
        (fun m => if m.id == mid then { m with status := MsgStatus.read } else m)).find?
        (fun m => m.id == mid)) = _
      rw [find?_map_keyed _ mid (fun m => { m with status := MsgStatus.read }) (fun m => rfl)]
      show ((st.db.msgs.map
        (fun m => if m.id == mid then { m with isRead := true } else m)).find?
        (fun m => m.id == mid)).map _ = _
      rw [find?_map_keyed _ mid (fun m => { m with isRead := true }) (fun m => rfl), hfind]
      rfl
    have husers : (wsReadCase st u mid).state.db.users = st.db.users := by
      rw [spec1.1]
      rfl
    have hsender1 : getUser (wsReadCase st u mid).state.db m0.senderId = some sender := by
      rw [getUser_congr husers]
      exact hsender
    have hconn1 : isUserConnected (wsReadCase st u mid).state sender.id
        = isUserConnected st sender.id := isUserConnected_congr spec1.2.1 sender.id
    have hcond1 : (sender.id != u && isUserConnected (wsReadCase st u mid).state sender.id)
        = true := by
      rw [hconn1]
      exact hcond
    have spec2 := wsReadCase_found_spec (wsReadCase st u mid).state u mid
      { m0 with isRead := true, status := MsgStatus.read } hmid hfind1
    rw [spec2.2.2.2.2]
    have hs : getUser (wsReadCase st u mid).state.db
        ({ m0 with isRead := true, status := MsgStatus.read }).senderId = some sender := hsender1
    rw [hs]
    simp [hcond1]

/-- C6 witness: the amended read-receipt theorem at the concrete two-user
state. -/
theorem C6_read_receipt_witness :
    (wsReadCase stM 2 1).pushes = [(1, Frame.readReceipt 1)]
    ∧ (wsReadCase (wsReadCase stM 2 1).state 2 1).pushes = [(1, Frame.readReceipt 1)] := by
  have h := C6_read_receipt_not_idempotent stM 2 1 msg1 (mkUser 1)
    (by decide) (by decide) (by decide) (by decide) (by decide)
  exact ⟨h.1, h.2⟩

/-- After the `read` handler, the stored row of the message carries the
`isRead` flag and the `read` status. -/
theorem readCase_db_find (st : ServerState) (u mid : Nat) (m0 : Message)
    (hmid : mid ≠ 0)
    (hfind : st.db.msgs.find? (fun m => m.id == mid) = some m0) :
    (wsReadCase st u mid).state.db.msgs.find? (fun m => m.id == mid)
      = some { m0 with isRead := true, status := MsgStatus.read } := by
  rw [(wsReadCase_found_spec st u mid m0 hmid hfind).1]
  show (((markMessageAsRead st.db mid).2.msgs.map
    (fun m => if m.id == mid then { m with status := MsgStatus.read } else m)).find?
    (fun m => m.id == mid)) = _
  rw [find?_map_keyed _ mid (fun m => { m with status := MsgStatus.read }) (fun m => rfl)]
  show ((st.db.msgs.map
    (fun m => if m.id == mid then { m with isRead := true } else m)).find?
    (fun m => m.id == mid)).map _ = _
  rw [find?_map_keyed _ mid (fun m => { m with isRead := true }) (fun m => rfl), hfind]
  rfl

/-! ### Claim C9 -/

/-- C9: an inbound `read` frame from a connection bound to any user, naming
any existing message, marks the message read (flag and status) and pushes
the receipt to its sender when the sender is connected and distinct from the
reader — even when the bound reader is not a participant of the message's
chat: no chat-membership check guards the read path. -/
theorem C9_read_without_membership_check (st : ServerState) (u mid : Nat) (m0 : Message)
    (sender : UserRec)
    (hmid : mid ≠ 0)
    (hfind : st.db.msgs.find? (fun m => m.id == mid) = some m0)
    (hsender : getUser st.db m0.senderId = some sender)
    (hne : sender.id ≠ u)
    (hconn : isUserConnected st sender.id = true)
    (hnotmember : (st.db.chatParticipants.any
        (fun cp => cp.chatId == m0.chatId && cp.userId == u)) = false) :
    isReadOf (wsReadCase st u mid).state.db mid = some true
    ∧ statusOf (wsReadCase st u mid).state.db mid = some MsgStatus.read
    ∧ (wsReadCase st u mid).pushes = [(sender.id, Frame.readReceipt mid)] := by
  have hcond : (sender.id != u && isUserConnected st sender.id) = true := by
    rw [Bool.and_eq_true, bne_iff_ne]
    exact ⟨hne, hconn⟩
  have hfind1 := readCase_db_find st u mid m0 hmid hfind
  refine ⟨?_, ?_, ?_⟩
  · unfold isReadOf
    rw [hfind1]
    rfl
  · unfold statusOf
    rw [hfind1]
    rfl
  · rw [(wsReadCase_found_spec st u mid m0 hmid hfind).2.2.2.2, hsender]
    simp [hcond]

/-- C9 witness: user 3, who is not a participant of chat 1, reads message 1;
the message is marked read and the connected sender (user 1) gets the
receipt. -/
theorem C9_read_without_membership_check_witness :
    isReadOf (wsReadCase stM 3 1).state.db 1 = some true
    ∧ statusOf (wsReadCase stM 3 1).state.db 1 = some MsgStatus.read
    ∧ (wsReadCase stM 3 1).pushes = [(1, Frame.readReceipt 1)] := by
  have h := C9_read_without_membership_check stM 3 1 msg1 (mkUser 1)
    (by decide) (by decide) (by decide) (by decide) (by decide) (by decide)
  exact h

/-! ### Claim C2 -/

/-- C2: registering a session for a user whose existing entry carries a
different client instance id leaves exactly one registry entry for that user
(the newest), yields the new entry on lookup, issues a close on the prior
transport handle when it was open, and preserves distinctness of registry
keys (at most one entry per user). -/
theorem C2_register_evicts (st : ServerState) (ws : WSHandle) (urlClientId : String)
    (u : Nat) (payloadClientId : Option String) (e : ClientEntry)
    (hu : u ≠ 0)
    (he : mapLookup st.connectedClients u = some e)
    (hdiff : e.clientId ≠ resolveClientId payloadClientId urlClientId)
    (hnd : (st.connectedClients.map Prod.fst).Nodup) :
    ((wsUserStatusCase st ws urlClientId (some u) payloadClientId).state.connectedClients.filter
        (fun p => p.1 == u)) = [(u, ⟨ws, resolveClientId payloadClientId urlClientId⟩)]
    ∧ mapLookup (wsUserStatusCase st ws urlClientId
        (some u) payloadClientId).state.connectedClients u
        = some ⟨ws, resolveClientId payloadClientId urlClientId⟩
    ∧ (e.ws.isOpen = true →
        (wsUserStatusCase st ws urlClientId (some u) payloadClientId).closes = [e.ws.id])
    ∧ ((wsUserStatusCase st ws urlClientId (some u) payloadClientId).state.connectedClients.map
        Prod.fst).Nodup := by
  have hbne : (e.clientId != resolveClientId payloadClientId urlClientId) = true :=
    bne_iff_ne.mpr hdiff
  simp only [wsUserStatusCase]
  rw [if_neg (by simp [hu]), he]
  refine ⟨?_, ?_, ?_, ?_⟩
  · exact mapSet_filter_key st.connectedClients u _ hnd
  · exact mapLookup_mapSet_self st.connectedClients u _
  · intro hopen
    show (if (e.clientId != resolveClientId payloadClientId urlClientId && e.ws.isOpen) = true
        then [e.ws.id] else []) = [e.ws.id]
    rw [if_pos (by rw [Bool.and_eq_true]; exact ⟨hbne, hopen⟩)]
  · exact mapSet_keys_nodup st.connectedClients u _ hnd

/-- C2 witness: a second tab for user 1 registers with a different client
instance id; the old socket is closed, exactly the new entry remains. -/
theorem C2_register_evicts_witness :
    ((wsUserStatusCase st0 wsNew "" (some 1) (some "cNEW")).state.connectedClients.filter
        (fun p => p.1 == 1)) = [(1, ⟨wsNew, "cNEW"⟩)]
    ∧ mapLookup (wsUserStatusCase st0 wsNew "" (some 1)
        (some "cNEW")).state.connectedClients 1 = some ⟨wsNew, "cNEW"⟩
    ∧ (wsUserStatusCase st0 wsNew "" (some 1) (some "cNEW")).closes = [1]
    ∧ ((wsUserStatusCase st0 wsNew "" (some 1) (some "cNEW")).state.connectedClients.map
        Prod.fst).Nodup := by
  have h := C2_register_evicts st0 wsNew "" 1 (some "cNEW") ⟨wsA, "cA"⟩
    (by decide) rfl (by decide) (by decide)
  exact ⟨h.1, h.2.1, h.2.2.1 rfl, h.2.2.2⟩

/-! ### Message-path lemmas -/

/-- Behaviour of the live-transport `message` handler on a successful parse
and insert: fan-out of the delivered-override copy to connected participants
other than the submitter, conditional `delivered` status write, and the
`message_sent` acknowledgement on the submitting socket. -/
theorem wsMessageCase_ok_spec (st : ServerState) (u : Nat) (ws : WSHandle)
    (raw : RawMessagePayload) (vm : InsertMessage) (saved : Message) (db1 : DB)
    (hparse : insertMessageSchemaParse raw = .ok vm)
    (hcreate : createMessage vm st.db = .ok (saved, db1)) :
    (wsMessageCase st u ws raw).pushes
      = ((getChatParticipants db1 saved.chatId).filter
          (fun p => p.id != u && isUserConnected st p.id)).map
        (fun p => (p.id, Frame.message { saved with status := MsgStatus.delivered }))
    ∧ (wsMessageCase st u ws raw).state.db
      = (if (getChatParticipants db1 saved.chatId).any
            (fun p => p.id != u && isUserConnected st p.id) = true
          then setMessageStatus db1 saved.id .delivered else db1)
    ∧ (wsMessageCase st u ws raw).state.connectedClients = st.connectedClients
    ∧ (wsMessageCase st u ws raw).toConn
      = (if ws.isOpen then [Frame.messageSent saved.id
          (if (getChatParticipants db1 saved.chatId).any
              (fun p => p.id != u && isUserConnected st p.id) = true
            then MsgStatus.delivered else MsgStatus.sent)] else []) := by
  simp only [wsMessageCase, hparse, hcreate]
  have hc : ∀ x, isUserConnected { st with db := db1 } x = isUserConnected st x :=
    fun x => isUserConnected_congr rfl x
  simp only [hc]
  refine ⟨?_, ?_, ?_, ?_⟩ <;> trivial

/-- Behaviour of `POST /api/messages` on a successful parse and insert. -/
theorem httpPostMessages_ok_spec (st : ServerState) (u : Nat) (body : RawMessagePayload)
    (vm : InsertMessage) (nm : Message) (db1 : DB)
    (hparse : insertMessageSchemaParse { body with senderId := some u } = .ok vm)
    (hcreate : createMessage vm st.db = .ok (nm, db1)) :
    (httpPostMessages st u body).pushes
      = ((getChatParticipants db1 nm.chatId).filter
          (fun p => p.id != u && isUserConnected st p.id)).map
        (fun p => (p.id, Frame.message (if (getChatParticipants db1 nm.chatId).any
            (fun p => p.id != u && isUserConnected st p.id) = true
          then { nm with status := MsgStatus.delivered } else nm)))
    ∧ (httpPostMessages st u body).state.db
      = (if (getChatParticipants db1 nm.chatId).any
            (fun p => p.id != u && isUserConnected st p.id) = true
          then setMessageStatus db1 nm.id .delivered else db1)
    ∧ (httpPostMessages st u body).state.connectedClients = st.connectedClients
    ∧ (httpPostMessages st u body).response
      = .created (if (getChatParticipants db1 nm.chatId).any
            (fun p => p.id != u && isUserConnected st p.id) = true
          then { nm with status := MsgStatus.delivered } else nm) := by
  simp only [httpPostMessages, hparse, hcreate]
  have hc : ∀ x, isUserConnected { st with db := db1 } x = isUserConnected st x :=
    fun x => isUserConnected_congr rfl x
  simp only [hc]
  refine ⟨?_, ?_, ?_, ?_⟩ <;> trivial

/-- The durable path never emits a `message_sent` frame, in any branch. -/
theorem httpPostMessages_no_messageSent (st : ServerState) (u : Nat)
    (body : RawMessagePayload) :
    (httpPostMessages st u body).pushes.countP (fun q => q.2.isMessageSentFrame) = 0 := by
  cases hp : insertMessageSchemaParse { body with senderId := some u } with
  | error e =>
    simp [httpPostMessages, hp]
  | ok vm =>
    cases hc : createMessage vm st.db with
    | error e =>
      simp [httpPostMessages, hp, hc]
    | ok pr =>
      obtain ⟨nm, db1⟩ := pr
      have h := httpPostMessages_ok_spec st u body vm nm db1 hp hc
      rw [h.1]
      exact fanout_no_messageSent _ _ _ _

/-! ### Claim C7 -/

/-- C7 counterexample: a message submitted through the durable path while
the sender is connected produces zero `message_sent` frames — the
acknowledgement exists only on the live-transport path, so the sender does
not receive exactly one acknowledgement regardless of submission path. -/
theorem C7_counterexample :
    isUserConnected st0 1 = true
    ∧ (httpPostMessages st0 1 rawHi).response.isCreated = true
    ∧ (httpPostMessages st0 1 rawHi).pushes.countP (fun q => q.2.isMessageSentFrame) = 0 := by
  refine ⟨rfl, rfl, by decide⟩

/-- C7 (amended): the `message_sent` acknowledgement carrying the message id
and final status is pushed exactly once and only on the live-transport path
(on the submitting socket, when still open); the recipient fan-out carries
no acknowledgement frames; the durable path emits no `message_sent` frame in
any branch — its result is the HTTP response. -/
theorem C7_message_sent_only_ws (st : ServerState) (u : Nat) (ws : WSHandle)
    (raw : RawMessagePayload) (vm : InsertMessage) (saved : Message) (db1 : DB)
    (hparse : insertMessageSchemaParse raw = .ok vm)
    (hcreate : createMessage vm st.db = .ok (saved, db1))
    (hopen : ws.isOpen = true) :
    (wsMessageCase st u ws raw).toConn
      = [Frame.messageSent saved.id (if (getChatParticipants db1 saved.chatId).any
          (fun p => p.id != u && isUserConnected st p.id) = true
          then MsgStatus.delivered else MsgStatus.sent)]
    ∧ (wsMessageCase st u ws raw).pushes.countP (fun q => q.2.isMessageSentFrame) = 0
    ∧ (httpPostMessages st u raw).pushes.countP (fun q => q.2.isMessageSentFrame) = 0 := by
  have hws := wsMessageCase_ok_spec st u ws raw vm saved db1 hparse hcreate
  refine ⟨?_, ?_, httpPostMessages_no_messageSent st u raw⟩
  · rw [hws.2.2.2, if_pos hopen]
  · rw [hws.1]
    exact fanout_no_messageSent _ _ _ _

/-- C7 witness: the acknowledgement theorem at the concrete connected
state. -/
theorem C7_message_sent_only_ws_witness :
    (wsMessageCase st0 1 wsA rawHi).toConn = [Frame.messageSent 1 MsgStatus.delivered]
    ∧ (httpPostMessages st0 1 rawHi).pushes.countP (fun q => q.2.isMessageSentFrame) = 0 := by
  have h := C7_message_sent_only_ws st0 1 wsA rawHi ⟨1, 1, some "hi", none, none⟩
    ⟨1, 1, 1, some "hi", none, none, false, 100, MsgStatus.sent⟩
    ⟨[mkUser 1, mkUser 2, mkUser 3], [⟨1, none, false, 0⟩], [⟨1, 1, 1⟩, ⟨2, 1, 2⟩],
      [⟨1, 1, 1, some "hi", none, none, false, 100, MsgStatus.sent⟩], 2, 100⟩
    rfl rfl rfl
  exact ⟨h.1, h.2.2⟩

/-! ### Claim C4 -/

/-- C4: on both submission paths, every connected participant other than the
sender receives exactly one `message` frame whose copy carries status
`delivered`; no frame goes to the sender or to unreachable participants; the
stored status becomes `delivered` exactly when at least one other
participant is reachable, and stays `sent` otherwise. -/
theorem C4_delivery_fanout (st : ServerState) (u : Nat) (ws : WSHandle)
    (raw : RawMessagePayload) (vm : InsertMessage) (saved : Message) (db1 : DB)
    (hparse : insertMessageSchemaParse raw = .ok vm)
    (hsend : raw.senderId = some u)
    (hcreate : createMessage vm st.db = .ok (saved, db1))
    (hnodup : (st.db.users.map (fun x => x.id)).Nodup)
    (hfresh : ∀ m ∈ st.db.msgs, m.id < st.db.nextMsgId) :
    (∀ p ∈ getChatParticipants st.db saved.chatId, p.id ≠ u → isUserConnected st p.id = true →
        (wsMessageCase st u ws raw).pushes.countP (fun q => q.1 == p.id) = 1
        ∧ (httpPostMessages st u raw).pushes.countP (fun q => q.1 == p.id) = 1)
    ∧ (∀ q ∈ (wsMessageCase st u ws raw).pushes,
        q.2 = Frame.message { saved with status := MsgStatus.delivered }
        ∧ q.1 ≠ u ∧ isUserConnected st q.1 = true)
    ∧ (∀ q ∈ (httpPostMessages st u raw).pushes,
        q.2 = Frame.message { saved with status := MsgStatus.delivered }
        ∧ q.1 ≠ u ∧ isUserConnected st q.1 = true)
    ∧ ((∃ p ∈ getChatParticipants st.db saved.chatId, p.id ≠ u ∧ isUserConnected st p.id = true) →
        statusOf (wsMessageCase st u ws raw).state.db saved.id = some MsgStatus.delivered
        ∧ statusOf (httpPostMessages st u raw).state.db saved.id = some MsgStatus.delivered)
    ∧ ((¬ ∃ p ∈ getChatParticipants st.db saved.chatId,
          p.id ≠ u ∧ isUserConnected st p.id = true) →
        statusOf (wsMessageCase st u ws raw).state.db saved.id = some MsgStatus.sent
        ∧ statusOf (httpPostMessages st u raw).state.db saved.id = some MsgStatus.sent) := by
  obtain ⟨hid, hchat, hsid, hcont, hmu, hmt, hir, hsa, hstat, hus, hch, hcp, hms, hni, hnow⟩ :=
    createMessage_ok_elim hcreate
  have hraweq : { raw with senderId := some u } = raw := raw_senderId_override raw u hsend
  have hws := wsMessageCase_ok_spec st u ws raw vm saved db1 hparse hcreate
  have hhttp := httpPostMessages_ok_spec st u raw vm saved db1 (by rw [hraweq]; exact hparse)
    hcreate
  have hparts : getChatParticipants db1 saved.chatId = getChatParticipants st.db saved.chatId :=
    getChatParticipants_congr hus hcp saved.chatId
  have hpnodup : ((getChatParticipants st.db saved.chatId).map (fun x => x.id)).Nodup :=
    participants_nodup st.db saved.chatId hnodup
  have hfindsaved : db1.msgs.find? (fun m => m.id == saved.id) = some saved := by
    rw [hms]
    apply find?_append_fresh
    intro x hx
    rw [hid]
    exact Nat.ne_of_lt (hfresh x hx)
  refine ⟨?_, ?_, ?_, ?_, ?_⟩
  · intro p hp hpu hpc
    constructor
    · rw [hws.1, hparts]
      exact fanout_countP _ u _ (fun x => isUserConnected st x) hpnodup p hp hpu hpc
    · rw [hhttp.1, hparts]
      exact fanout_countP _ u _ (fun x => isUserConnected st x) hpnodup p hp hpu hpc
  · intro q hq
    rw [hws.1] at hq
    have h := fanout_mem _ u _ (fun x => isUserConnected st x) q hq
    exact ⟨h.1, h.2.1, h.2.2⟩
  · intro q hq
    rw [hhttp.1] at hq
    rcases List.mem_map.mp hq with ⟨x, hx, hxe⟩
    rcases List.mem_filter.mp hx with ⟨hxm, hxc⟩
    have hany : (getChatParticipants db1 saved.chatId).any
        (fun p => p.id != u && isUserConnected st p.id) = true :=
      List.any_eq_true.mpr ⟨x, hxm, hxc⟩
    rw [Bool.and_eq_true, bne_iff_ne] at hxc
    subst hxe
    exact ⟨by rw [if_pos hany], hxc.1, hxc.2⟩
  · intro hex
    have hany : (getChatParticipants db1 saved.chatId).any
        (fun p => p.id != u && isUserConnected st p.id) = true := by
      rw [hparts]
      exact (any_reachable_iff _ u (fun x => isUserConnected st x)).mpr hex
    constructor
    · rw [hws.2.1, if_pos hany]
      exact statusOf_setMessageStatus hfindsaved .delivered
    · rw [hhttp.2.1, if_pos hany]
      exact statusOf_setMessageStatus hfindsaved .delivered
  · intro hnex
    have hany : (getChatParticipants db1 saved.chatId).any
        (fun p => p.id != u && isUserConnected st p.id) = false := by
      rw [hparts]
      rw [Bool.eq_false_iff]
      intro hx
      exact hnex ((any_reachable_iff _ u (fun x => isUserConnected st x)).mp hx)
    have hsof : statusOf db1 saved.id = some MsgStatus.sent := by
      unfold statusOf
      rw [hfindsaved]
      show some saved.status = some MsgStatus.sent
      rw [hstat]
    constructor
    · rw [hws.2.1, if_neg (by simp [hany])]
      exact hsof
    · rw [hhttp.2.1, if_neg (by simp [hany])]
      exact hsof

/-- C4 witness: the fan-out theorem at the concrete two-participant state
with only user 2 reachable. -/
theorem C4_delivery_fanout_witness :
    (wsMessageCase st0 1 wsA rawHi).pushes.countP (fun q => q.1 == 2) = 1
    ∧ (httpPostMessages st0 1 rawHi).pushes.countP (fun q => q.1 == 2) = 1
    ∧ statusOf (wsMessageCase st0 1 wsA rawHi).state.db 1 = some MsgStatus.delivered := by
  have h := C4_delivery_fanout st0 1 wsA rawHi ⟨1, 1, some "hi", none, none⟩
    ⟨1, 1, 1, some "hi", none, none, false, 100, MsgStatus.sent⟩
    ⟨[mkUser 1, mkUser 2, mkUser 3], [⟨1, none, false, 0⟩], [⟨1, 1, 1⟩, ⟨2, 1, 2⟩],
      [⟨1, 1, 1, some "hi", none, none, false, 100, MsgStatus.sent⟩], 2, 100⟩
    rfl rfl rfl (by decide) (by decide)
  have h1 := h.1 (mkUser 2) (by decide) (by decide) rfl
  have h2 := h.2.2.2.1 ⟨mkUser 2, by decide, by decide, rfl⟩
  exact ⟨h1.1, h1.2, h2.1⟩

/-! ### Claim C5 -/

/-- C5 counterexample: the same logical payload submitted through the
live-transport path and then the durable path (same chat, sender, content,
same instant) is persisted twice and the connected recipient (user 2)
receives two `message` pushes — no deduplication exists on either path. -/
theorem C5_counterexample :
    (httpPostMessages (wsMessageCase st0 1 wsA rawHi).state 1 rawHi).state.db.msgs.map
        (fun m => (m.chatId, m.senderId, m.content))
      = [(1, 1, some "hi"), (1, 1, some "hi")]
    ∧ ((wsMessageCase st0 1 wsA rawHi).pushes
        ++ (httpPostMessages (wsMessageCase st0 1 wsA rawHi).state 1 rawHi).pushes).countP
        (fun q => q.1 == 2) = 2 := by
  refine ⟨by decide, by decide⟩

/-- C5 (amended): no deduplication is performed: submitting the same payload
via the live-transport path and then the durable path grows the message
store by two rows, and each connected participant other than the sender
receives one `message` push per path — two in total. -/
theorem C5_dual_submission_duplicates (st : ServerState) (u : Nat) (ws : WSHandle)
    (raw : RawMessagePayload) (vm : InsertMessage) (saved : Message) (db1 : DB)
    (hparse : insertMessageSchemaParse raw = .ok vm)
    (hsend : raw.senderId = some u)
    (hcreate : createMessage vm st.db = .ok (saved, db1))
    (hnodup : (st.db.users.map (fun x => x.id)).Nodup)
    (hfresh : ∀ m ∈ st.db.msgs, m.id < st.db.nextMsgId) :
    (httpPostMessages (wsMessageCase st u ws raw).state u raw).state.db.msgs.length
        = st.db.msgs.length + 2
    ∧ (∀ p ∈ getChatParticipants st.db saved.chatId, p.id ≠ u → isUserConnected st p.id = true →
        (wsMessageCase st u ws raw).pushes.countP (fun q => q.1 == p.id)
          + (httpPostMessages (wsMessageCase st u ws raw).state u raw).pushes.countP
              (fun q => q.1 == p.id) = 2) := by
  obtain ⟨hid, hchat, hsid, hcont, hmu, hmt, hir, hsa, hstat, hus, hch, hcp, hms, hni, hnow⟩ :=
    createMessage_ok_elim hcreate
  have hraweq : { raw with senderId := some u } = raw := raw_senderId_override raw u hsend
  have hws := wsMessageCase_ok_spec st u ws raw vm saved db1 hparse hcreate
  have hparts : getChatParticipants db1 saved.chatId = getChatParticipants st.db saved.chatId :=
    getChatParticipants_congr hus hcp saved.chatId
  have hpnodup : ((getChatParticipants st.db saved.chatId).map (fun x => x.id)).Nodup :=
    participants_nodup st.db saved.chatId hnodup
  have h1us : (wsMessageCase st u ws raw).state.db.users = st.db.users := by
    rw [hws.2.1]
    split
    · exact hus
    · exact hus
  have h1ch : (wsMessageCase st u ws raw).state.db.chats = st.db.chats := by
    rw [hws.2.1]
    split
    · exact hch
    · exact hch
  have h1cp : (wsMessageCase st u ws raw).state.db.chatParticipants
      = st.db.chatParticipants := by
    rw [hws.2.1]
    split
    · exact hcp
    · exact hcp
  have h1len : (wsMessageCase st u ws raw).state.db.msgs.length
      = st.db.msgs.length + 1 := by
    rw [hws.2.1]
    have hbase : db1.msgs.length = st.db.msgs.length + 1 := by
      rw [hms, List.length_append]
      rfl
    split
    · show (db1.msgs.map _).length = _
      rw [List.length_map]
      exact hbase
    · exact hbase
  have hcc : (wsMessageCase st u ws raw).state.connectedClients = st.connectedClients :=
    hws.2.2.1
  have hc1 : (st.db.chats.any fun c => c.id == vm.chatId) = true := by
    cases hb : (st.db.chats.any fun c => c.id == vm.chatId) with
    | true => rfl
    | false =>
      have herr := (createMessage_error_iff vm st.db).mpr (Or.inl hb)
      rw [herr] at hcreate
      cases hcreate
  have hc2 : (st.db.users.any fun x => x.id == vm.senderId) = true := by
    cases hb : (st.db.users.any fun x => x.id == vm.senderId) with
    | true => rfl
    | false =>
      have herr := (createMessage_error_iff vm st.db).mpr (Or.inr hb)
      rw [herr] at hcreate
      cases hcreate
  cases hcm2 : createMessage vm (wsMessageCase st u ws raw).state.db with
  | error e =>
    cases e
    rw [createMessage_error_iff] at hcm2
    rcases hcm2 with hb | hb
    · rw [h1ch, hc1] at hb
      cases hb
    · rw [h1us, hc2] at hb
      cases hb
  | ok pr2 =>
    obtain ⟨saved2, db2⟩ := pr2
    obtain ⟨h2id, h2chat, h2sid, h2cont, h2mu, h2mt, h2ir, h2sa, h2stat, h2us, h2ch, h2cp,
      h2ms, h2ni, h2now⟩ := createMessage_ok_elim hcm2
    have hhttp2 := httpPostMessages_ok_spec (wsMessageCase st u ws raw).state u raw vm saved2
      db2 (by rw [hraweq]; exact hparse) hcm2
    have hparts2 : getChatParticipants db2 saved2.chatId
        = getChatParticipants st.db saved.chatId := by
      rw [h2chat, ← hchat]
      exact getChatParticipants_congr (h2us.trans h1us) (h2cp.trans h1cp) saved.chatId
    constructor
    · rw [hhttp2.2.1]
      have hbase : db2.msgs.length = st.db.msgs.length + 2 := by
        rw [h2ms, List.length_append, h1len]
        rfl
      split
      · show (db2.msgs.map _).length = _
        rw [List.length_map]
        exact hbase
      · exact hbase
    · intro p hp hpu hpc
      have hcount1 : (wsMessageCase st u ws raw).pushes.countP (fun q => q.1 == p.id) = 1 := by
        rw [hws.1, hparts]
        exact fanout_countP _ u _ (fun x => isUserConnected st x) hpnodup p hp hpu hpc
      have hcount2 : (httpPostMessages (wsMessageCase st u ws raw).state u raw).pushes.countP
          (fun q => q.1 == p.id) = 1 := by
        rw [hhttp2.1]
        simp only [isUserConnected_congr hcc]
        rw [hparts2]
        exact fanout_countP _ u _ (fun x => isUserConnected st x) hpnodup p hp hpu hpc
      rw [hcount1, hcount2]

/-- C5 witness: the duplication theorem at the concrete connected-recipient
state: two rows persisted, two pushes to user 2. -/
theorem C5_dual_submission_duplicates_witness :
    (httpPostMessages (wsMessageCase st0 1 wsA rawHi).state 1 rawHi).state.db.msgs.length = 2
    ∧ (wsMessageCase st0 1 wsA rawHi).pushes.countP (fun q => q.1 == 2)
        + (httpPostMessages (wsMessageCase st0 1 wsA rawHi).state 1 rawHi).pushes.countP
            (fun q => q.1 == 2) = 2 := by
  have h := C5_dual_submission_duplicates st0 1 wsA rawHi ⟨1, 1, some "hi", none, none⟩
    ⟨1, 1, 1, some "hi", none, none, false, 100, MsgStatus.sent⟩
    ⟨[mkUser 1, mkUser 2, mkUser 3], [⟨1, none, false, 0⟩], [⟨1, 1, 1⟩, ⟨2, 1, 2⟩],
      [⟨1, 1, 1, some "hi", none, none, false, 100, MsgStatus.sent⟩], 2, 100⟩
    rfl rfl rfl (by decide) (by decide)
  exact ⟨h.1, h.2 (mkUser 2) (by decide) (by decide) rfl⟩
